import Mathlib

/-!
# Verification of the minivim core against its specification

Shallow embedding of `src/editor.rs`, `src/plugins.rs` and the dispatch
loop of `src/main.rs`.  Rust `String`s are modelled as `List Char` (one
entry per Unicode scalar value), so `chars().count()` is `List.length`
and the byte length `String::len` is the sum of `Char.utf8Size` over the
characters.  Machine integers (`u16`, `u64`, `usize`) are modelled as
`Nat`; Rust `saturating_sub` coincides with truncated `Nat` subtraction,
and `u64::wrapping_add` is addition modulo `2 ^ 64`.  The filesystem is
external: a save is parameterised by a boolean oracle giving the outcome
of `fs::write` and by the error's display text.
-/

namespace Minivim

/-- Byte length of a Rust string (`String::len`), as opposed to its
character count (`chars().count()`). -/
def byteLen (s : List Char) : Nat :=
  (s.map Char.utf8Size).sum

/-- `Mode` from `editor.rs`. -/
inductive Mode where
  | Normal
  | Insert
  | Command
deriving DecidableEq, Repr

/-- `Cursor` from `editor.rs` (0-based, character coordinates). -/
structure Cursor where
  row : Nat
  col : Nat
deriving DecidableEq, Repr

/-- `Viewport` from `editor.rs`. -/
structure Viewport where
  row_offset : Nat
  col_offset : Nat
deriving DecidableEq, Repr

/-- `Buffer` from `editor.rs`: in-memory text stored as lines. -/
structure Buffer where
  lines : List (List Char)
deriving DecidableEq, Repr

/-- `contents.split('\n')` on the character sequence: splitting on every
newline, keeping empty pieces (Rust `str::split` semantics). -/
def splitNl : List Char → List (List Char)
  | [] => [[]]
  | c :: cs =>
    if c = '\n' then [] :: splitNl cs
    else
      match splitNl cs with
      | [] => [[c]]
      | l :: ls => (c :: l) :: ls

/-- `lines.join("\n")` (Rust `[String]::join`). -/
def joinNl : List (List Char) → List Char
  | [] => []
  | [l] => l
  | l :: ls => l ++ '\n' :: joinNl ls

/-- `Buffer::new`. -/
def Buffer.new : Buffer :=
  ⟨[[]]⟩

/-- `Buffer::from_string`. -/
def Buffer.from_string (contents : List Char) : Buffer :=
  let lines := splitNl contents
  if lines = [] then ⟨lines ++ [[]]⟩ else ⟨lines⟩

/-- `Buffer::to_string`. -/
def Buffer.to_string (b : Buffer) : List Char :=
  joinNl b.lines

/-- `CommandLine` from `editor.rs`. -/
structure CommandLine where
  active : Bool
  input : List Char
deriving DecidableEq, Repr

/-- `CommandLine::new`. -/
def CommandLine.new : CommandLine :=
  ⟨false, []⟩

/-- `Editor` from `editor.rs`.  `file_path : Option (List Char)` models
`Option<PathBuf>` as the path's display string. -/
structure Editor where
  buffer : Buffer
  cursor : Cursor
  viewport : Viewport
  mode : Mode
  command_line : CommandLine
  status : List Char
  file_path : Option (List Char)
  should_quit : Bool
  dirty : Bool
  revision : Nat
  screen_width : Nat
  screen_height : Nat
  command_queue : List (List Char)
deriving DecidableEq, Repr

/-- `Editor::new`. -/
def Editor.new (screen_width screen_height : Nat) (file_path : Option (List Char)) : Editor where
  buffer := Buffer.new
  cursor := ⟨0, 0⟩
  viewport := ⟨0, 0⟩
  mode := Mode.Normal
  command_line := CommandLine.new
  status := []
  file_path := file_path
  should_quit := false
  dirty := false
  revision := 0
  screen_width := screen_width
  screen_height := screen_height
  command_queue := []

/-- `Editor::content_height`: screen height minus the status gutter
(2 rows while the command line is active, 1 otherwise); `saturating_sub`
is truncated `Nat` subtraction. -/
def Editor.content_height (e : Editor) : Nat :=
  let gutter := if e.command_line.active then 2 else 1
  e.screen_height - gutter

/-- `Editor::set_status`. -/
def Editor.set_status (e : Editor) (message : List Char) : Editor :=
  { e with status := message }

/-- The line at `row`, as read by `self.buffer.lines[row]`.  Out-of-range
access, which panics in Rust, is totalised to the empty line; every
theorem below only exercises in-range states. -/
def Editor.getLine (e : Editor) (row : Nat) : List Char :=
  (e.buffer.lines.get? row).getD []

/-- `Editor::current_line_len`: the character count of the cursor's line
(`chars().count()`), or 0 past the end. -/
def Editor.current_line_len (e : Editor) : Nat :=
  ((e.buffer.lines.get? e.cursor.row).map List.length).getD 0

/-- `Editor::clamp_cursor`. -/
def Editor.clamp_cursor (e : Editor) : Editor :=
  let e1 :=
    if e.cursor.row ≥ e.buffer.lines.length then
      { e with cursor := ⟨e.buffer.lines.length - 1, 0⟩ }
    else e
  let line_len := e1.current_line_len
  if e1.cursor.col > line_len then
    { e1 with cursor := ⟨e1.cursor.row, line_len⟩ }
  else e1

/-- `Editor::ensure_cursor_visible`.  Each axis: with a zero extent the
offset is set to the cursor coordinate; otherwise scroll up/left to the
cursor, or down/right so the cursor is on the last visible row/column. -/
def Editor.ensure_cursor_visible (e : Editor) : Editor :=
  let content_height := e.content_height
  let row_offset :=
    if content_height = 0 then e.cursor.row
    else if e.cursor.row < e.viewport.row_offset then e.cursor.row
    else if e.cursor.row ≥ e.viewport.row_offset + content_height then
      e.cursor.row - (content_height - 1)
    else e.viewport.row_offset
  let content_width := e.screen_width
  let col_offset :=
    if content_width = 0 then e.cursor.col
    else if e.cursor.col < e.viewport.col_offset then e.cursor.col
    else if e.cursor.col ≥ e.viewport.col_offset + content_width then
      e.cursor.col - (content_width - 1)
    else e.viewport.col_offset
  { e with viewport := ⟨row_offset, col_offset⟩ }

/-- `Editor::set_screen_size`. -/
def Editor.set_screen_size (e : Editor) (width height : Nat) : Editor :=
  Editor.ensure_cursor_visible { e with screen_width := width, screen_height := height }

/-- `Editor::move_left`. -/
def Editor.move_left (e : Editor) : Editor :=
  let e1 := if e.cursor.col > 0 then { e with cursor := ⟨e.cursor.row, e.cursor.col - 1⟩ } else e
  e1.ensure_cursor_visible

/-- `Editor::move_right`. -/
def Editor.move_right (e : Editor) : Editor :=
  let e1 :=
    if e.cursor.col < e.current_line_len then
      { e with cursor := ⟨e.cursor.row, e.cursor.col + 1⟩ }
    else e
  e1.ensure_cursor_visible

/-- `Editor::move_up`. -/
def Editor.move_up (e : Editor) : Editor :=
  let e1 :=
    if e.cursor.row > 0 then
      Editor.clamp_cursor { e with cursor := ⟨e.cursor.row - 1, e.cursor.col⟩ }
    else e
  e1.ensure_cursor_visible

/-- `Editor::move_down`. -/
def Editor.move_down (e : Editor) : Editor :=
  let e1 :=
    if e.cursor.row + 1 < e.buffer.lines.length then
      Editor.clamp_cursor { e with cursor := ⟨e.cursor.row + 1, e.cursor.col⟩ }
    else e
  e1.ensure_cursor_visible

/-- `Editor::move_line_start`. -/
def Editor.move_line_start (e : Editor) : Editor :=
  Editor.ensure_cursor_visible { e with cursor := ⟨e.cursor.row, 0⟩ }

/-- `Editor::move_line_end`. -/
def Editor.move_line_end (e : Editor) : Editor :=
  Editor.ensure_cursor_visible { e with cursor := ⟨e.cursor.row, e.current_line_len⟩ }

/-- `Editor::bump_revision`: `u64::wrapping_add(1)`. -/
def bumpRevision (r : Nat) : Nat :=
  (r + 1) % 2 ^ 64

/-- `Editor::insert_char`.  `char_to_byte_index` maps the cursor's
character position to the byte position of that character (saturating at
end of line), so `String::insert` there is insertion at character
position `col`, i.e. `take col ++ ch :: drop col`. -/
def Editor.insert_char (e : Editor) (ch : Char) : Editor :=
  let e :=
    if e.cursor.row ≥ e.buffer.lines.length then
      { e with buffer := ⟨e.buffer.lines ++ [[]]⟩ }
    else e
  let line := e.getLine e.cursor.row
  let line' := line.take e.cursor.col ++ ch :: line.drop e.cursor.col
  Editor.ensure_cursor_visible
    { e with
      buffer := ⟨e.buffer.lines.set e.cursor.row line'⟩,
      cursor := ⟨e.cursor.row, e.cursor.col + 1⟩,
      dirty := true,
      revision := bumpRevision e.revision }

/-- `Editor::insert_newline`.  `String::split_off` at the cursor's byte
position splits the line at character position `col`; `Vec::insert` puts
the tail at index `row + 1`. -/
def Editor.insert_newline (e : Editor) : Editor :=
  let e :=
    if e.cursor.row ≥ e.buffer.lines.length then
      { e with buffer := ⟨e.buffer.lines ++ [[]]⟩ }
    else e
  let line := e.getLine e.cursor.row
  let new_line := line.drop e.cursor.col
  let lines1 := e.buffer.lines.set e.cursor.row (line.take e.cursor.col)
  let lines2 := lines1.take (e.cursor.row + 1) ++ new_line :: lines1.drop (e.cursor.row + 1)
  Editor.ensure_cursor_visible
    { e with
      buffer := ⟨lines2⟩,
      cursor := ⟨e.cursor.row + 1, 0⟩,
      dirty := true,
      revision := bumpRevision e.revision }

/-- `Editor::backspace`.  In the merge branch the new cursor column is
`prev_len = line.len()`, the previous line's BYTE length in the Rust
source, modelled faithfully as `byteLen`. -/
def Editor.backspace (e : Editor) : Editor :=
  if e.cursor.row ≥ e.buffer.lines.length then e
  else if e.cursor.col > 0 then
    let line := e.getLine e.cursor.row
    let line' := line.eraseIdx (e.cursor.col - 1)
    Editor.ensure_cursor_visible
      { e with
        buffer := ⟨e.buffer.lines.set e.cursor.row line'⟩,
        cursor := ⟨e.cursor.row, e.cursor.col - 1⟩,
        dirty := true,
        revision := bumpRevision e.revision }
  else if e.cursor.row > 0 then
    let current := e.getLine e.cursor.row
    let lines1 := e.buffer.lines.eraseIdx e.cursor.row
    let prevRow := e.cursor.row - 1
    let prev := (lines1.get? prevRow).getD []
    let prev_len := byteLen prev
    Editor.ensure_cursor_visible
      { e with
        buffer := ⟨lines1.set prevRow (prev ++ current)⟩,
        cursor := ⟨prevRow, prev_len⟩,
        dirty := true,
        revision := bumpRevision e.revision }
  else e.ensure_cursor_visible

/-- `Editor::delete_char`. -/
def Editor.delete_char (e : Editor) : Editor :=
  if e.cursor.row ≥ e.buffer.lines.length then e
  else
    let line_len := e.current_line_len
    if e.cursor.col < line_len then
      let line := e.getLine e.cursor.row
      let line' := line.eraseIdx e.cursor.col
      Editor.ensure_cursor_visible
        { e with
          buffer := ⟨e.buffer.lines.set e.cursor.row line'⟩,
          dirty := true,
          revision := bumpRevision e.revision }
    else if e.cursor.row + 1 < e.buffer.lines.length then
      let next := e.getLine (e.cursor.row + 1)
      let lines1 := e.buffer.lines.eraseIdx (e.cursor.row + 1)
      let line := (lines1.get? e.cursor.row).getD []
      Editor.ensure_cursor_visible
        { e with
          buffer := ⟨lines1.set e.cursor.row (line ++ next)⟩,
          dirty := true,
          revision := bumpRevision e.revision }
    else e.ensure_cursor_visible

theorem splitNl_ne_nil (s : List Char) : splitNl s ≠ [] := by
  cases s with
  | nil => simp [splitNl]
  | cons c cs =>
    simp only [splitNl]
    split
    · simp
    · split <;> simp

theorem joinNl_cons_cons (c : Char) (l : List Char) (ls : List (List Char)) :
    joinNl ((c :: l) :: ls) = c :: joinNl (l :: ls) := by
  cases ls with
  | nil => simp [joinNl]
  | cons l' ls' => simp [joinNl]

/-- Splitting on newlines and rejoining is the identity, and the number of
pieces is one more than the number of newlines. -/
theorem joinNl_splitNl (s : List Char) :
    joinNl (splitNl s) = s ∧ (splitNl s).length = s.count '\n' + 1 := by
  induction s with
  | nil => simp [splitNl, joinNl]
  | cons c cs ih =>
    by_cases hc : c = '\n'
    · subst hc
      have hne := splitNl_ne_nil cs
      constructor
      · simp only [splitNl, if_pos rfl]
        cases h : splitNl cs with
        | nil => exact absurd h hne
        | cons l ls =>
          simp only [joinNl]
          rw [← h, ih.1]
          rfl
      · simp only [splitNl, if_pos rfl, List.length_cons, List.count_cons]
        simp [ih.2]
    · have hne := splitNl_ne_nil cs
      simp only [splitNl, if_neg hc]
      cases h : splitNl cs with
      | nil => exact absurd h hne
      | cons l ls =>
        constructor
        · rw [joinNl_cons_cons, ← h, ih.1]
        · have := ih.2
          rw [h] at this
          simp only [List.length_cons] at this ⊢
          simp [List.count_cons, hc, this]

/-- The cursor invariant of the data model: the column never exceeds the
current line's character length, and the row is a valid line index. -/
def cursorInvariant (e : Editor) : Prop :=
  e.cursor.col ≤ e.current_line_len ∧ e.cursor.row < e.buffer.lines.length

instance (e : Editor) : Decidable (cursorInvariant e) := by
  unfold cursorInvariant
  infer_instance

/-- Buffer `["é", ""]` with the cursor at the start of the second line: a
valid state whose first line's byte length (2) differs from its character
length (1). -/
def eBug : Editor :=
  { Editor.new 80 24 none with
      buffer := ⟨[['é'], []]⟩,
      cursor := ⟨1, 0⟩ }

/-- C1: on the merge branch `backspace` computes the new column from the
previous line's `len()` — its BYTE length — so on `["é", ""]` with cursor
(1,0) the lines merge to `["é"]` but the cursor lands at column 2, not at
the previous line's pre-merge character length 1 as the claim states. -/
theorem backspace_merge_column_is_byte_length :
    eBug.backspace.buffer.lines = [['é']] ∧
    eBug.backspace.cursor.row = 0 ∧
    eBug.backspace.cursor.col = 2 ∧
    ([('é' : Char)] : List Char).length = 1 := by
  decide

/-- C3: the cursor invariant is not preserved by every operation: from the
valid state `eBug` (non-empty buffer, col ≤ line length, row < #lines),
`backspace` merges `["é", ""]` to `["é"]` and sets the column to the byte
length 2, which exceeds the merged line's character length 1. -/
theorem backspace_violates_cursor_invariant :
    cursorInvariant eBug ∧ eBug.buffer.lines ≠ [] ∧ ¬ cursorInvariant eBug.backspace := by
  decide

/-- C4: loading then serializing is the identity on document text, and a
document with N lines arises exactly from text with N − 1 line breaks. -/
theorem from_string_to_string_roundtrip (s : List Char) :
    (Buffer.from_string s).to_string = s ∧
    (Buffer.from_string s).lines.length = s.count '\n' + 1 := by
  have h := joinNl_splitNl s
  unfold Buffer.from_string Buffer.to_string
  simp [splitNl_ne_nil s, h.1, h.2]

/-- C5: after `ensure_cursor_visible`, on each axis the cursor lies inside
the viewport window when the extent is positive, and the offset equals the
cursor coordinate when the extent is zero. -/
theorem ensure_cursor_visible_bounds (e : Editor) :
    (0 < e.content_height →
      e.ensure_cursor_visible.viewport.row_offset ≤ e.cursor.row ∧
      e.cursor.row < e.ensure_cursor_visible.viewport.row_offset + e.content_height) ∧
    (e.content_height = 0 →
      e.ensure_cursor_visible.viewport.row_offset = e.cursor.row) ∧
    (0 < e.screen_width →
      e.ensure_cursor_visible.viewport.col_offset ≤ e.cursor.col ∧
      e.cursor.col < e.ensure_cursor_visible.viewport.col_offset + e.screen_width) ∧
    (e.screen_width = 0 →
      e.ensure_cursor_visible.viewport.col_offset = e.cursor.col) := by
  unfold Editor.ensure_cursor_visible
  simp only
  split_ifs <;> simp_all <;> omega

/-- Witness for C5 at a concrete editor with positive extents. -/
theorem ensure_cursor_visible_bounds_witness :
    ((Editor.new 80 24 none).ensure_cursor_visible.viewport.row_offset ≤
      (Editor.new 80 24 none).cursor.row ∧
      (Editor.new 80 24 none).cursor.row <
        (Editor.new 80 24 none).ensure_cursor_visible.viewport.row_offset +
          (Editor.new 80 24 none).content_height) ∧
    ((Editor.new 80 24 none).ensure_cursor_visible.viewport.col_offset ≤
      (Editor.new 80 24 none).cursor.col ∧
      (Editor.new 80 24 none).cursor.col <
        (Editor.new 80 24 none).ensure_cursor_visible.viewport.col_offset +
          (Editor.new 80 24 none).screen_width) :=
  ⟨(ensure_cursor_visible_bounds (Editor.new 80 24 none)).1 (by decide),
   (ensure_cursor_visible_bounds (Editor.new 80 24 none)).2.2.1 (by decide)⟩

/-- Unicode `White_Space` (Rust `char::is_whitespace`). -/
def isRustWhitespace (c : Char) : Bool :=
  let n := c.toNat
  n = 0x20 || (0x9 ≤ n && n ≤ 0xD) || n = 0x85 || n = 0xA0 || n = 0x1680 ||
    (0x2000 ≤ n && n ≤ 0x200A) || n = 0x2028 || n = 0x2029 || n = 0x202F ||
    n = 0x205F || n = 0x3000

/-- Rust `str::trim`: strip leading and trailing whitespace. -/
def rustTrim (s : List Char) : List Char :=
  ((s.dropWhile isRustWhitespace).reverse.dropWhile isRustWhitespace).reverse

/-- Accumulator worker for `splitWs`; `cur` holds the current token
reversed. -/
def splitWsAux : List Char → List Char → List (List Char)
  | [], cur => if cur.isEmpty then [] else [cur.reverse]
  | c :: cs, cur =>
    if isRustWhitespace c then
      if cur.isEmpty then splitWsAux cs []
      else cur.reverse :: splitWsAux cs []
    else splitWsAux cs (c :: cur)

/-- Rust `str::split_whitespace`: the maximal non-whitespace runs, in
order, with no empty tokens. -/
def splitWs (s : List Char) : List (List Char) :=
  splitWsAux s []

/-- `EventResult` from `editor.rs`. -/
inductive EventResult where
  | Consumed
  | Ignored
deriving DecidableEq, Repr

/-- `Editor::save_to_path`: `fs::write` is external, its outcome is the
oracle `writeOk`; on success the dirty flag is cleared, on failure the
error propagates with the editor unchanged.  The path only reaches the
filesystem, not the editor state. -/
def Editor.save_to_path (e : Editor) (_path : List Char) (writeOk : Bool) : Bool × Editor :=
  if writeOk then (true, { e with dirty := false }) else (false, e)

/-- `format!("Wrote {}", path.display())`. -/
def wroteMsg (path : List Char) : List Char :=
  ("Wrote ").toList ++ path

/-- `format!("Write failed: {}", err)`, with the error display text as a
parameter. -/
def writeFailedMsg (err : List Char) : List Char :=
  ("Write failed: ").toList ++ err

/-- The `q`-with-unsaved-changes warning from `plugins.rs`. -/
def noWriteMsg : List Char :=
  ("No write since last change (add ! to override)").toList

/-- The "No file name" status from `plugins.rs`. -/
def noFileNameMsg : List Char :=
  ("No file name").toList

/-- `FileCommandPlugin::save_to_path`: returns whether the save succeeded
together with the updated editor. -/
def FileCommandPlugin.save_to_path (e : Editor) (path : List Char) (writeOk : Bool)
    (errMsg : List Char) : Bool × Editor :=
  match e.save_to_path path writeOk with
  | (true, e1) => (true, ({ e1 with file_path := some path }).set_status (wroteMsg path))
  | (false, e1) => (false, e1.set_status (writeFailedMsg errMsg))

/-- `FileCommandPlugin::command_quit`. -/
def FileCommandPlugin.command_quit (e : Editor) (force : Bool) : Editor :=
  if e.dirty && !force then e.set_status noWriteMsg
  else { e with should_quit := true }

/-- `FileCommandPlugin::on_command`.  The verb is the first
whitespace-separated token of the trimmed command
(`parts.next().unwrap_or("")`); the optional path argument is the second
token, falling back to the editor's file identity. -/
def FileCommandPlugin.on_command (e : Editor) (command : List Char) (writeOk : Bool)
    (errMsg : List Char) : EventResult × Editor :=
  let trimmed := rustTrim command
  if trimmed.isEmpty then (EventResult.Consumed, e)
  else
    let parts := splitWs trimmed
    let verb := parts.headD []
    if verb = ("w").toList then
      match (parts[1]?).orElse (fun _ => e.file_path) with
      | some path => (EventResult.Consumed, (FileCommandPlugin.save_to_path e path writeOk errMsg).2)
      | none => (EventResult.Consumed, e.set_status noFileNameMsg)
    else if verb = ("wq").toList ∨ verb = ("x").toList then
      match (parts[1]?).orElse (fun _ => e.file_path) with
      | some path =>
        match FileCommandPlugin.save_to_path e path writeOk errMsg with
        | (true, e1) => (EventResult.Consumed, { e1 with should_quit := true })
        | (false, e1) => (EventResult.Consumed, e1)
      | none => (EventResult.Consumed, e.set_status noFileNameMsg)
    else if verb = ("q").toList then
      (EventResult.Consumed, FileCommandPlugin.command_quit e false)
    else if verb = ("q!").toList then
      (EventResult.Consumed, FileCommandPlugin.command_quit e true)
    else (EventResult.Ignored, e)

theorem trim_not_empty_of_verb {cmd v : List Char}
    (h : (splitWs (rustTrim cmd)).headD [] = v) (hv : v ≠ []) :
    (rustTrim cmd).isEmpty = false := by
  rcases htr : rustTrim cmd with _ | ⟨a, l⟩
  · rw [htr] at h
    simp [splitWs, splitWsAux] at h
    exact (hv h).elim
  · simp

theorem on_command_verb_q (e : Editor) (cmd : List Char) (writeOk : Bool) (errMsg : List Char)
    (h : (splitWs (rustTrim cmd)).headD [] = ("q").toList) :
    FileCommandPlugin.on_command e cmd writeOk errMsg =
      (EventResult.Consumed, FileCommandPlugin.command_quit e false) := by
  have htrim := trim_not_empty_of_verb h (by decide)
  have h1 : ("q").toList ≠ ("w").toList := by decide
  have h2 : ("q").toList ≠ ("wq").toList := by decide
  have h3 : ("q").toList ≠ ("x").toList := by decide
  unfold FileCommandPlugin.on_command
  simp only [htrim]
  rw [h]
  simp [h1, h2, h3]

theorem on_command_verb_qbang (e : Editor) (cmd : List Char) (writeOk : Bool) (errMsg : List Char)
    (h : (splitWs (rustTrim cmd)).headD [] = ("q!").toList) :
    FileCommandPlugin.on_command e cmd writeOk errMsg =
      (EventResult.Consumed, FileCommandPlugin.command_quit e true) := by
  have htrim := trim_not_empty_of_verb h (by decide)
  have h1 : ("q!").toList ≠ ("w").toList := by decide
  have h2 : ("q!").toList ≠ ("wq").toList := by decide
  have h3 : ("q!").toList ≠ ("x").toList := by decide
  have h4 : ("q!").toList ≠ ("q").toList := by decide
  unfold FileCommandPlugin.on_command
  simp only [htrim]
  rw [h]
  simp [h1, h2, h3, h4]

theorem on_command_verb_w_some (e : Editor) (cmd : List Char) (writeOk : Bool)
    (errMsg p : List Char)
    (h : (splitWs (rustTrim cmd)).headD [] = ("w").toList)
    (hp : ((splitWs (rustTrim cmd))[1]?).orElse (fun _ => e.file_path) = some p) :
    FileCommandPlugin.on_command e cmd writeOk errMsg =
      (EventResult.Consumed, (FileCommandPlugin.save_to_path e p writeOk errMsg).2) := by
  have htrim := trim_not_empty_of_verb h (by decide)
  unfold FileCommandPlugin.on_command
  simp only [htrim]
  rw [h]
  simp [hp]

theorem on_command_verb_wqx_some (e : Editor) (cmd : List Char) (writeOk : Bool)
    (errMsg p : List Char)
    (h : (splitWs (rustTrim cmd)).headD [] = ("wq").toList ∨
         (splitWs (rustTrim cmd)).headD [] = ("x").toList)
    (hp : ((splitWs (rustTrim cmd))[1]?).orElse (fun _ => e.file_path) = some p) :
    FileCommandPlugin.on_command e cmd writeOk errMsg =
      (EventResult.Consumed,
        if writeOk then
          { (FileCommandPlugin.save_to_path e p writeOk errMsg).2 with should_quit := true }
        else (FileCommandPlugin.save_to_path e p writeOk errMsg).2) := by
  have hne : (splitWs (rustTrim cmd)).headD [] ≠ ("w").toList := by
    rcases h with h | h <;> rw [h] <;> decide
  have htrim : (rustTrim cmd).isEmpty = false := by
    rcases h with h | h <;> exact trim_not_empty_of_verb h (by decide)
  unfold FileCommandPlugin.on_command
  simp only [htrim]
  rcases h with h | h <;> rw [h] <;>
    cases writeOk <;>
      simp [hp, hne, FileCommandPlugin.save_to_path, Editor.save_to_path, Editor.set_status]

/-- C2 counterexample: on the concrete command `"foo"`, whose verb is not
one of w/wq/x/q/q!, `on_command` returns `Ignored` — not `Consumed` as the
claim states — so by the short-circuit dispatch contract the command does
propagate to later handlers. -/
theorem on_command_unrecognized_foo_not_consumed :
    (FileCommandPlugin.on_command (Editor.new 80 24 none) (("foo").toList) true []).1 =
      EventResult.Ignored ∧
    EventResult.Ignored ≠ EventResult.Consumed := by
  decide

/-- C2 (amended): for every command whose first whitespace-separated token
exists and is none of w/wq/x/q/q!, `on_command` returns `Ignored` and
leaves the editor unchanged; the command therefore propagates to later
handlers in the dispatch chain (all of which ignore commands by default,
so it still has no effect). -/
theorem on_command_unrecognized_verb_ignored (e : Editor) (command : List Char)
    (writeOk : Bool) (errMsg : List Char)
    (hne : splitWs (rustTrim command) ≠ [])
    (hw : (splitWs (rustTrim command)).headD [] ≠ ("w").toList)
    (hwq : (splitWs (rustTrim command)).headD [] ≠ ("wq").toList)
    (hx : (splitWs (rustTrim command)).headD [] ≠ ("x").toList)
    (hq : (splitWs (rustTrim command)).headD [] ≠ ("q").toList)
    (hqb : (splitWs (rustTrim command)).headD [] ≠ ("q!").toList) :
    FileCommandPlugin.on_command e command writeOk errMsg = (EventResult.Ignored, e) := by
  have htrim : (rustTrim command).isEmpty = false := by
    rcases htr : rustTrim command with _ | ⟨a, l⟩
    · rw [htr] at hne
      exact (hne (by simp [splitWs, splitWsAux])).elim
    · simp
  unfold FileCommandPlugin.on_command
  simp only [htrim]
  simp at hw hwq hx hq hqb
  simp [hw, hwq, hx, hq, hqb]

/-- Witness for the amended C2 at the concrete command `"foo"`. -/
theorem on_command_unrecognized_verb_ignored_witness :
    FileCommandPlugin.on_command (Editor.new 80 24 none) (("foo").toList) true [] =
      (EventResult.Ignored, Editor.new 80 24 none) :=
  on_command_unrecognized_verb_ignored (Editor.new 80 24 none) (("foo").toList) true []
    (by decide) (by decide) (by decide) (by decide) (by decide) (by decide)

/-- C6: for a `w`, `wq` or `x` command whose path resolves (explicit
second token, or the editor's file identity): on save failure the dirty
flag, file identity and quit flag are unchanged and the failure status is
set; on success dirty is cleared, the file identity becomes the saved
path, the success status is set, and the quit flag is set exactly for
`wq`/`x` (and untouched for `w`). -/
theorem save_command_outcomes (e : Editor) (cmd : List Char) (writeOk : Bool)
    (errMsg p : List Char)
    (hverb : (splitWs (rustTrim cmd)).headD [] = ("w").toList ∨
             (splitWs (rustTrim cmd)).headD [] = ("wq").toList ∨
             (splitWs (rustTrim cmd)).headD [] = ("x").toList)
    (hpath : ((splitWs (rustTrim cmd))[1]?).orElse (fun _ => e.file_path) = some p) :
    (FileCommandPlugin.on_command e cmd writeOk errMsg).1 = EventResult.Consumed ∧
    (writeOk = false →
      (FileCommandPlugin.on_command e cmd writeOk errMsg).2.dirty = e.dirty ∧
      (FileCommandPlugin.on_command e cmd writeOk errMsg).2.file_path = e.file_path ∧
      (FileCommandPlugin.on_command e cmd writeOk errMsg).2.status = writeFailedMsg errMsg ∧
      (FileCommandPlugin.on_command e cmd writeOk errMsg).2.should_quit = e.should_quit) ∧
    (writeOk = true →
      (FileCommandPlugin.on_command e cmd writeOk errMsg).2.dirty = false ∧
      (FileCommandPlugin.on_command e cmd writeOk errMsg).2.file_path = some p ∧
      (FileCommandPlugin.on_command e cmd writeOk errMsg).2.status = wroteMsg p ∧
      (FileCommandPlugin.on_command e cmd writeOk errMsg).2.should_quit =
        (if (splitWs (rustTrim cmd)).headD [] = ("w").toList then e.should_quit else true)) := by
  rcases hverb with hw | hwx
  · rw [on_command_verb_w_some e cmd writeOk errMsg p hw hpath]
    simp at hw
    cases writeOk <;>
      simp [FileCommandPlugin.save_to_path, Editor.save_to_path, Editor.set_status, hw]
  · have hne : (splitWs (rustTrim cmd)).headD [] ≠ ("w").toList := by
      rcases hwx with h | h <;> rw [h] <;> decide
    rw [on_command_verb_wqx_some e cmd writeOk errMsg p hwx hpath]
    simp at hne
    cases writeOk <;>
      simp [FileCommandPlugin.save_to_path, Editor.save_to_path, Editor.set_status, hne]

/-- A dirty editor with a file identity, used as concrete input. -/
def eSave : Editor :=
  { Editor.new 80 24 none with file_path := some (("f.txt").toList), dirty := true }

/-- Witness for C6: `w` on a dirty editor with file identity `f.txt` and a
succeeding write clears dirty and keeps the resolved identity. -/
theorem save_command_outcomes_witness :
    (FileCommandPlugin.on_command eSave (("w").toList) true []).1 = EventResult.Consumed ∧
    (FileCommandPlugin.on_command eSave (("w").toList) true []).2.dirty = false ∧
    (FileCommandPlugin.on_command eSave (("w").toList) true []).2.file_path =
      some (("f.txt").toList) := by
  have h := save_command_outcomes eSave (("w").toList) true [] (("f.txt").toList)
    (Or.inl (by decide)) (by decide)
  exact ⟨h.1, (h.2.2 rfl).1, (h.2.2 rfl).2.1⟩

/-- C7: `q` sets the quit flag exactly when the editor is not dirty, and
when dirty instead sets the unsaved-changes warning and leaves the quit
flag as it was; `q!` sets the quit flag unconditionally. -/
theorem quit_command_outcomes (e : Editor) (cmdq cmdqb : List Char) (writeOk : Bool)
    (errMsg : List Char)
    (hq : (splitWs (rustTrim cmdq)).headD [] = ("q").toList)
    (hqb : (splitWs (rustTrim cmdqb)).headD [] = ("q!").toList) :
    (e.dirty = false → (FileCommandPlugin.on_command e cmdq writeOk errMsg).2.should_quit = true) ∧
    (e.dirty = true →
      (FileCommandPlugin.on_command e cmdq writeOk errMsg).2.should_quit = e.should_quit ∧
      (FileCommandPlugin.on_command e cmdq writeOk errMsg).2.status = noWriteMsg) ∧
    (e.should_quit = false →
      ((FileCommandPlugin.on_command e cmdq writeOk errMsg).2.should_quit = true ↔
        e.dirty = false)) ∧
    (FileCommandPlugin.on_command e cmdqb writeOk errMsg).2.should_quit = true := by
  rw [on_command_verb_q e cmdq writeOk errMsg hq,
    on_command_verb_qbang e cmdqb writeOk errMsg hqb]
  unfold FileCommandPlugin.command_quit
  cases hd : e.dirty <;> simp [Editor.set_status, hd]

/-- A dirty editor used as concrete input. -/
def eDirty : Editor :=
  { Editor.new 80 24 none with dirty := true }

/-- Witness for C7 on a dirty editor: `q` refuses and warns, `q!` quits. -/
theorem quit_command_outcomes_witness :
    (FileCommandPlugin.on_command eDirty (("q").toList) true []).2.should_quit = false ∧
    (FileCommandPlugin.on_command eDirty (("q").toList) true []).2.status = noWriteMsg ∧
    (FileCommandPlugin.on_command eDirty (("q!").toList) true []).2.should_quit = true := by
  have h := quit_command_outcomes eDirty (("q").toList) (("q!").toList) true []
    (by decide) (by decide)
  exact ⟨(h.2.1 rfl).1, (h.2.1 rfl).2, h.2.2.2⟩

/-- `format_status_line` from `plugins.rs` (character coordinates). -/
def format_status_line (left right : List Char) (width : Nat) : List Char :=
  if width = 0 then []
  else
    let right_len := right.length
    if right_len ≥ width then right.take width
    else
      let available_left := width - (right_len + 1)
      let left_trimmed := left.take available_left
      let padding := width - (left_trimmed.length + right_len)
      left_trimmed ++ List.replicate padding ' ' ++ right

/-- C8: zero width gives the empty status line; a right text at least as
long as the width gives the right text truncated to the width; otherwise
the line is the left text truncated to fit, space padding, then the right
text, with total character length exactly the width. -/
theorem format_status_line_spec (left right : List Char) (width : Nat) :
    (width = 0 → format_status_line left right width = []) ∧
    (right.length ≥ width → format_status_line left right width = right.take width) ∧
    (right.length < width →
      format_status_line left right width =
        left.take (width - (right.length + 1)) ++
          List.replicate
            (width - ((left.take (width - (right.length + 1))).length + right.length)) ' ' ++
          right ∧
      (format_status_line left right width).length = width) := by
  unfold format_status_line
  refine ⟨fun h => by simp [h], fun h => ?_, fun h => ?_⟩
  · rcases Nat.eq_zero_or_pos width with hw | hw
    · simp [hw]
    · simp [Nat.pos_iff_ne_zero.mp hw, h]
  · have hw : width ≠ 0 := by omega
    have hnot : ¬ right.length ≥ width := by omega
    simp only [hw, if_false, hnot, ge_iff_le, if_neg (by omega : ¬ width ≤ right.length)]
    refine ⟨trivial, ?_⟩
    simp only [List.length_append, List.length_replicate, List.length_take]
    omega

/-- Witness for C8 at left `"NORMAL"`, right `"Ln 1"`, width 12. -/
theorem format_status_line_spec_witness :
    format_status_line (("NORMAL").toList) (("Ln 1").toList) 12 =
      ("NORMAL").toList ++ List.replicate 2 ' ' ++ ("Ln 1").toList ∧
    (format_status_line (("NORMAL").toList) (("Ln 1").toList) 12).length = 12 := by
  have h := (format_status_line_spec (("NORMAL").toList) (("Ln 1").toList) 12).2.2 (by decide)
  exact ⟨by rw [h.1]; decide, h.2⟩

/-- Abstract token standing for `crossterm::style::ContentStyle`; the
style's contents never influence the core logic verified here. -/
structure ContentStyle where
  token : Nat
deriving DecidableEq, Repr

/-- `StyledSpan` from `editor.rs`: a styled run within one row, in
character coordinates. -/
structure StyledSpan where
  start : Nat
  len : Nat
  style : ContentStyle
deriving DecidableEq, Repr

/-- The cache-bearing state of `SyntaxHighlightPlugin`.  The `syntax_set`
and `theme` fields of the Rust struct belong to the external
grammar/theme collaborator and are absorbed into the classifier
parameter `hl` below. -/
structure SyntaxHighlightPlugin where
  cached_spans : List (List StyledSpan)
  last_revision : Nat
  last_path : Option (List Char)
deriving DecidableEq, Repr

/-- `SyntaxHighlightPlugin::new`: empty cache stamped `u64::MAX`. -/
def SyntaxHighlightPlugin.new : SyntaxHighlightPlugin :=
  ⟨[], 2 ^ 64 - 1, none⟩

/-- `SyntaxHighlightPlugin::needs_rehighlight`. -/
def SyntaxHighlightPlugin.needs_rehighlight (p : SyntaxHighlightPlugin) (e : Editor) : Bool :=
  decide (e.revision ≠ p.last_revision) || decide (e.file_path ≠ p.last_path) ||
    decide (e.buffer.lines.length ≠ p.cached_spans.length)

/-- `SyntaxHighlightPlugin::rehighlight`: one span list per buffer line,
then the stamps are set to the editor's revision and file identity.  The
per-line classification itself is performed by the external
syntect-backed collaborator, abstracted as the parameter `hl` from the
editor and the line index. -/
def SyntaxHighlightPlugin.rehighlight (hl : Editor → Nat → List StyledSpan)
    (p : SyntaxHighlightPlugin) (e : Editor) : SyntaxHighlightPlugin :=
  let _ := p
  { cached_spans := (List.range e.buffer.lines.length).map (hl e),
    last_revision := e.revision,
    last_path := e.file_path }

/-- The cache-maintenance prefix of `SyntaxHighlightPlugin::on_render`:
recompute exactly when `needs_rehighlight`; the returned flag records
whether a recompute ran during this render pass. -/
def SyntaxHighlightPlugin.on_render_cache (hl : Editor → Nat → List StyledSpan)
    (p : SyntaxHighlightPlugin) (e : Editor) : SyntaxHighlightPlugin × Bool :=
  if p.needs_rehighlight e then (p.rehighlight hl e, true) else (p, false)

/-- C9: a render pass recomputes the highlight cache exactly when the
revision, file identity or line count differs from the cache's stamp; a
changed revision forces a recompute; and after a render, a second render
whose editor agrees on revision, file identity and line count performs no
recompute (so two consecutive renders do at most one recompute). -/
theorem highlight_cache_recompute_spec (hl : Editor → Nat → List StyledSpan)
    (p : SyntaxHighlightPlugin) (e e' : Editor)
    (hrev : e'.revision = e.revision) (hpath : e'.file_path = e.file_path)
    (hlen : e'.buffer.lines.length = e.buffer.lines.length) :
    ((SyntaxHighlightPlugin.on_render_cache hl p e).2 = p.needs_rehighlight e) ∧
    (e.revision ≠ p.last_revision → (SyntaxHighlightPlugin.on_render_cache hl p e).2 = true) ∧
    ((SyntaxHighlightPlugin.on_render_cache hl
        (SyntaxHighlightPlugin.on_render_cache hl p e).1 e').2 = false) := by
  by_cases hn : p.needs_rehighlight e = true
  · have h1 : SyntaxHighlightPlugin.on_render_cache hl p e = (p.rehighlight hl e, true) := by
      simp [SyntaxHighlightPlugin.on_render_cache, hn]
    refine ⟨by simp [h1, hn], fun _ => by simp [h1], ?_⟩
    rw [h1]
    simp [SyntaxHighlightPlugin.on_render_cache, SyntaxHighlightPlugin.needs_rehighlight,
      SyntaxHighlightPlugin.rehighlight, hrev, hpath, hlen]
  · have hn' : p.needs_rehighlight e = false := by simpa using hn
    have hfields : e.revision = p.last_revision ∧ e.file_path = p.last_path ∧
        e.buffer.lines.length = p.cached_spans.length := by
      have := hn'
      unfold SyntaxHighlightPlugin.needs_rehighlight at this
      simp only [Bool.or_eq_false_iff, decide_eq_false_iff_not, Decidable.not_not] at this
      exact ⟨this.1.1, this.1.2, this.2⟩
    have h1 : SyntaxHighlightPlugin.on_render_cache hl p e = (p, false) := by
      simp [SyntaxHighlightPlugin.on_render_cache, hn']
    refine ⟨by simp [h1, hn'], fun hne => ?_, ?_⟩
    · exact (hne hfields.1).elim
    · rw [h1]
      simp [SyntaxHighlightPlugin.on_render_cache, SyntaxHighlightPlugin.needs_rehighlight,
        hrev, hpath, hlen, hfields.1, hfields.2.1, hfields.2.2]

/-- Witness for C9: a fresh cache against a fresh editor (revision 0
differs from the `u64::MAX` stamp) recomputes on the first render and not
on the second. -/
theorem highlight_cache_recompute_spec_witness :
    ((SyntaxHighlightPlugin.on_render_cache (fun _ _ => []) SyntaxHighlightPlugin.new
        (Editor.new 80 24 none)).2 = true) ∧
    ((SyntaxHighlightPlugin.on_render_cache (fun _ _ => [])
        (SyntaxHighlightPlugin.on_render_cache (fun _ _ => []) SyntaxHighlightPlugin.new
          (Editor.new 80 24 none)).1 (Editor.new 80 24 none)).2 = false) := by
  have h := highlight_cache_recompute_spec (fun _ _ => []) SyntaxHighlightPlugin.new
    (Editor.new 80 24 none) (Editor.new 80 24 none) rfl rfl rfl
  exact ⟨h.2.1 (by decide), h.2.2⟩

/-- `RenderContext` from `editor.rs`. -/
structure RenderContext where
  width : Nat
  height : Nat
  lines : List (List Char)
  spans : List (List StyledSpan)
  cursor : Option (Nat × Nat)
deriving DecidableEq, Repr

/-- `RenderContext::new`: one empty text row and one empty span list per
screen line. -/
def RenderContext.new (width height : Nat) : RenderContext :=
  ⟨width, height, List.replicate height [], List.replicate height [], none⟩

/-- `RenderContext::set_line`: out-of-range rows are ignored; stored text
is truncated to at most `width` characters (empty when `width = 0`). -/
def RenderContext.set_line (ctx : RenderContext) (row : Nat) (text : List Char) : RenderContext :=
  if row ≥ ctx.lines.length then ctx
  else if ctx.width = 0 then { ctx with lines := ctx.lines.set row [] }
  else { ctx with lines := ctx.lines.set row (text.take ctx.width) }

/-- `RenderContext::set_spans`: out-of-range rows are ignored. -/
def RenderContext.set_spans (ctx : RenderContext) (row : Nat) (spans : List StyledSpan) :
    RenderContext :=
  if row ≥ ctx.spans.length then ctx
  else { ctx with spans := ctx.spans.set row spans }

/-- `RenderContext::set_cursor`. -/
def RenderContext.set_cursor (ctx : RenderContext) (row col : Nat) : RenderContext :=
  { ctx with cursor := some (row, col) }

/-- One call against the render context, as issued by a render handler. -/
inductive RenderOp where
  | line (row : Nat) (text : List Char)
  | spans (row : Nat) (sp : List StyledSpan)
  | cursor (row col : Nat)

/-- Apply one render call. -/
def applyOp (ctx : RenderContext) : RenderOp → RenderContext
  | RenderOp.line r t => ctx.set_line r t
  | RenderOp.spans r s => ctx.set_spans r s
  | RenderOp.cursor r c => ctx.set_cursor r c

/-- Apply a sequence of render calls in order. -/
def applyOps (ctx : RenderContext) : List RenderOp → RenderContext
  | [] => ctx
  | op :: ops => applyOps (applyOp ctx op) ops

/-- Structural invariant of a render context of the given geometry. -/
def ctxInv (width height : Nat) (ctx : RenderContext) : Prop :=
  ctx.width = width ∧ ctx.height = height ∧
  ctx.lines.length = height ∧ ctx.spans.length = height ∧
  ∀ l ∈ ctx.lines, l.length ≤ width ∧ (width = 0 → l = [])

theorem ctxInv_new (width height : Nat) : ctxInv width height (RenderContext.new width height) := by
  refine ⟨rfl, rfl, by simp [RenderContext.new], by simp [RenderContext.new], ?_⟩
  intro l hl
  rw [RenderContext.new] at hl
  simp only [List.eq_of_mem_replicate hl]
  simp

theorem ctxInv_applyOp {width height : Nat} {ctx : RenderContext}
    (h : ctxInv width height ctx) (op : RenderOp) : ctxInv width height (applyOp ctx op) := by
  obtain ⟨hw, hh, hl, hs, hmem⟩ := h
  cases op with
  | line r t =>
    show ctxInv width height (ctx.set_line r t)
    unfold RenderContext.set_line
    by_cases h1 : r ≥ ctx.lines.length
    · rw [if_pos h1]
      exact ⟨hw, hh, hl, hs, hmem⟩
    · rw [if_neg h1]
      by_cases h2 : ctx.width = 0
      · rw [if_pos h2]
        refine ⟨hw, hh, by simpa using hl, hs, ?_⟩
        intro l hlmem
        rcases List.mem_or_eq_of_mem_set hlmem with hin | rfl
        · exact hmem l hin
        · simp
      · rw [if_neg h2]
        refine ⟨hw, hh, by simpa using hl, hs, ?_⟩
        intro l hlmem
        rcases List.mem_or_eq_of_mem_set hlmem with hin | rfl
        · exact hmem l hin
        · constructor
          · calc (t.take ctx.width).length ≤ ctx.width := by simp
              _ = width := hw
          · intro h0
            rw [hw] at h2
            exact (h2 h0).elim
  | spans r s =>
    show ctxInv width height (ctx.set_spans r s)
    unfold RenderContext.set_spans
    by_cases h1 : r ≥ ctx.spans.length
    · rw [if_pos h1]
      exact ⟨hw, hh, hl, hs, hmem⟩
    · rw [if_neg h1]
      exact ⟨hw, hh, hl, by simpa using hs, hmem⟩
  | cursor r c =>
    show ctxInv width height (ctx.set_cursor r c)
    exact ⟨hw, hh, hl, hs, hmem⟩

theorem ctxInv_applyOps {width height : Nat} {ctx : RenderContext}
    (h : ctxInv width height ctx) (ops : List RenderOp) :
    ctxInv width height (applyOps ctx ops) := by
  induction ops generalizing ctx with
  | nil => exact h
  | cons op ops ih => exact ih (ctxInv_applyOp h op)

/-- C10: after any sequence of render calls starting from a fresh context,
`set_line` and `set_spans` are no-ops on every row index at or past the
context's height (total, no failure), every stored row has character
length at most the width, and with zero width every stored row is empty. -/
theorem render_context_set_total (width height : Nat) (ops : List RenderOp) :
    (∀ row text, row ≥ height →
      (applyOps (RenderContext.new width height) ops).set_line row text =
        applyOps (RenderContext.new width height) ops) ∧
    (∀ row sp, row ≥ height →
      (applyOps (RenderContext.new width height) ops).set_spans row sp =
        applyOps (RenderContext.new width height) ops) ∧
    (∀ l ∈ (applyOps (RenderContext.new width height) ops).lines, l.length ≤ width) ∧
    (width = 0 → ∀ l ∈ (applyOps (RenderContext.new width height) ops).lines, l = []) := by
  obtain ⟨hw, hh, hl, hs, hmem⟩ := ctxInv_applyOps (ctxInv_new width height) ops
  refine ⟨fun row text hrow => ?_, fun row sp hrow => ?_, fun l hlmem => (hmem l hlmem).1,
    fun h0 l hlmem => (hmem l hlmem).2 h0⟩
  · unfold RenderContext.set_line
    rw [if_pos (by omega)]
  · unfold RenderContext.set_spans
    rw [if_pos (by omega)]

/-- Witness for C10: width 2, height 1, one in-range `set_line` with an
overlong text; the out-of-range calls are no-ops and the stored row is
truncated to 2 characters. -/
theorem render_context_set_total_witness :
    (applyOps (RenderContext.new 2 1) [RenderOp.line 0 (("abc").toList)]).set_line 1
        (("z").toList) =
      applyOps (RenderContext.new 2 1) [RenderOp.line 0 (("abc").toList)] ∧
    (applyOps (RenderContext.new 2 1) [RenderOp.line 0 (("abc").toList)]).set_spans 1 [] =
      applyOps (RenderContext.new 2 1) [RenderOp.line 0 (("abc").toList)] ∧
    (("ab").toList).length ≤ 2 := by
  have h := render_context_set_total 2 1 [RenderOp.line 0 (("abc").toList)]
  exact ⟨h.1 1 (("z").toList) (by decide), h.2.1 1 [] (by decide),
    h.2.2.1 (("ab").toList) (by decide)⟩

end Minivim
